import Mathlib

/-
Shallow embedding of the field-data-collector service layer
(src/app/services.py and src/app/models.py).

Python strings are modelled as `List Char`, byte strings as `List Nat`,
naive UTC datetimes as a component structure compared lexicographically.
External effects are explicit parameters: the SHA-256 hex digest and the
random salt/token are inputs, the clock is a `PyDateTime` argument, the
database tables are lists threaded through each operation, and the disk
is an association list from paths to byte strings.
-/

/-- Python str.split with a one-character separator, as used by
`password_hash.split("$")` in services.py line 46: returns the list of
(possibly empty) segments between occurrences of the separator. -/
def pySplit (sep : Char) : List Char → List (List Char)
  | [] => [[]]
  | c :: rest =>
    match pySplit sep rest with
    | [] => [[c]]
    | p :: ps => if c = sep then [] :: p :: ps else (c :: p) :: ps

/-- AuthService.hash_password (services.py lines 36-40) with the random salt
and the SHA-256 hex digest function made explicit inputs: the result encodes
`salt $ digest(password + salt)`. -/
def hash_password (digest : List Char → List Char) (password salt : List Char) : List Char :=
  salt ++ '$' :: digest (password ++ salt)

/-- AuthService.verify_password (services.py lines 43-50): split the stored
value on the dollar separator into exactly a salt and a digest — any other
number of parts is the ValueError branch returning False — then recompute
the digest over `password + salt` and compare. -/
def verify_password (digest : List Char → List Char) (password stored : List Char) : Bool :=
  match pySplit '$' stored with
  | [salt, hv] => digest (password ++ salt) == hv
  | _ => false

theorem pySplit_ne_nil (sep : Char) (l : List Char) : pySplit sep l ≠ [] := by
  cases l with
  | nil => simp [pySplit]
  | cons c rest =>
    simp only [pySplit]
    cases h : pySplit sep rest with
    | nil => simp
    | cons p ps =>
      by_cases hc : c = sep <;> simp [hc]

theorem pySplit_of_not_mem (sep : Char) (d : List Char) (hd : sep ∉ d) :
    pySplit sep d = [d] := by
  induction d with
  | nil => rfl
  | cons c rest ih =>
    have hc : c ≠ sep := fun h => hd (h ▸ List.mem_cons_self c rest)
    have hrest : sep ∉ rest := fun h => hd (List.mem_cons_of_mem c h)
    simp [pySplit, ih hrest, hc]

theorem pySplit_append (sep : Char) (s d : List Char) (hs : sep ∉ s) :
    pySplit sep (s ++ sep :: d) = s :: pySplit sep d := by
  induction s with
  | nil =>
    simp only [List.nil_append, pySplit]
    cases h : pySplit sep d with
    | nil => exact absurd h (pySplit_ne_nil sep d)
    | cons p ps => simp
  | cons c cs ih =>
    have hc : c ≠ sep := fun h => hs (h ▸ List.mem_cons_self c cs)
    have hcs : sep ∉ cs := fun h => hs (List.mem_cons_of_mem c h)
    show pySplit sep (c :: (cs ++ sep :: d)) = (c :: cs) :: pySplit sep d
    simp only [pySplit]
    rw [ih hcs]
    simp [hc]

theorem pySplit_encoded (sep : Char) (s d : List Char) (hs : sep ∉ s) (hd : sep ∉ d) :
    pySplit sep (s ++ sep :: d) = [s, d] := by
  rw [pySplit_append sep s d hs, pySplit_of_not_mem sep d hd]

/-- C3: with the salt an explicit parameter, verifying a password against its own
hash succeeds for every dollar-free salt, and hashing the same password with two
different dollar-free salts yields two different encoded outputs (so two calls of
hash_password, each drawing a fresh random hex salt, differ whenever the salts do). -/
theorem c3_hash_verify_roundtrip_and_salt_injective
    (digest : List Char → List Char) (p s s1 s2 : List Char)
    (hdig : ∀ x, '$' ∉ digest x)
    (hs : '$' ∉ s) (h1 : '$' ∉ s1) (h2 : '$' ∉ s2) (hne : s1 ≠ s2) :
    verify_password digest p (hash_password digest p s) = true ∧
    hash_password digest p s1 ≠ hash_password digest p s2 := by
  constructor
  · unfold verify_password hash_password
    rw [pySplit_encoded '$' s (digest (p ++ s)) hs (hdig (p ++ s))]
    simp
  · intro heq
    have hsplit := congrArg (pySplit '$') heq
    rw [hash_password, hash_password,
      pySplit_encoded '$' s1 (digest (p ++ s1)) h1 (hdig (p ++ s1)),
      pySplit_encoded '$' s2 (digest (p ++ s2)) h2 (hdig (p ++ s2))] at hsplit
    exact hne (by injection hsplit)

/-- Concrete instantiation of the C3 theorem: a constant dollar-free digest,
password "p", salts "x" and "y". -/
theorem c3_hash_verify_witness :
    verify_password (fun _ => ['a']) ['p']
        (hash_password (fun _ => ['a']) ['p'] ['x']) = true ∧
    hash_password (fun _ => ['a']) ['p'] ['x'] ≠
      hash_password (fun _ => ['a']) ['p'] ['y'] :=
  c3_hash_verify_roundtrip_and_salt_injective (fun _ => ['a']) ['p'] ['x'] ['x'] ['y']
    (fun x => by show '$' ∉ ['a']; decide) (by decide) (by decide) (by decide) (by decide)

/-- C5: verify_password returns false (it is a total function, so it cannot raise)
on every stored value that does not split into exactly two parts on the dollar
separator. -/
theorem c5_verify_malformed_returns_false
    (digest : List Char → List Char) (p stored : List Char)
    (h : (pySplit '$' stored).length ≠ 2) :
    verify_password digest p stored = false := by
  unfold verify_password
  cases hp : pySplit '$' stored with
  | nil => rfl
  | cons a rest =>
    cases rest with
    | nil => rfl
    | cons b rest2 =>
      cases rest2 with
      | nil => exact absurd (by rw [hp] ; rfl) h
      | cons c rest3 => rfl

/-- Concrete instantiation of the C5 theorem at the stored value "malformed". -/
theorem c5_verify_malformed_witness :
    verify_password (fun _ => []) ['p'] ['m', 'a', 'l', 'f', 'o', 'r', 'm', 'e', 'd'] = false :=
  c5_verify_malformed_returns_false (fun _ => []) ['p']
    ['m', 'a', 'l', 'f', 'o', 'r', 'm', 'e', 'd'] (by decide)

/-- A Python naive UTC datetime. `tod` collapses hour, minute, second and
microsecond into a single time-of-day number; Python compares those fields
lexicographically after the date fields, which this encoding preserves, and
every boundary the services build (`datetime(y, m, d)`, `datetime(y, m, 1)`)
has all of them zero. -/
structure PyDateTime where
  year : Nat
  month : Nat
  day : Nat
  tod : Nat
deriving DecidableEq

/-- Python datetime comparison `a <= b`: lexicographic on the components. -/
def dtLe (a b : PyDateTime) : Bool :=
  decide (a.year < b.year ∨ (a.year = b.year ∧ (a.month < b.month ∨ (a.month = b.month ∧
    (a.day < b.day ∨ (a.day = b.day ∧ a.tod ≤ b.tod))))))

/-- Python datetime comparison `a < b`: lexicographic on the components. -/
def dtLt (a b : PyDateTime) : Bool :=
  decide (a.year < b.year ∨ (a.year = b.year ∧ (a.month < b.month ∨ (a.month = b.month ∧
    (a.day < b.day ∨ (a.day = b.day ∧ a.tod < b.tod))))))

theorem dtLe_trans {a b c : PyDateTime} (h1 : dtLe a b = true) (h2 : dtLe b c = true) :
    dtLe a c = true := by
  simp only [dtLe, decide_eq_true_eq] at h1 h2 ⊢
  omega

theorem dtLe_total (a b : PyDateTime) : dtLe a b || dtLe b a := by
  simp only [dtLe, Bool.or_eq_true, decide_eq_true_eq]
  omega

/-- calendar.isleap, as the Gregorian rule Python's datetime uses. -/
def isLeapYear (y : Nat) : Bool :=
  y % 4 == 0 && (y % 100 != 0 || y % 400 == 0)

/-- Number of days in a month of the Gregorian calendar. -/
def daysInMonth (y m : Nat) : Nat :=
  if m = 2 then (if isLeapYear y then 29 else 28)
  else if m = 4 ∨ m = 6 ∨ m = 9 ∨ m = 11 then 30
  else 31

/-- The calendar day before the given one, time of day kept: this is what
`t - timedelta(days=1)` yields on a valid datetime. -/
def prevDay (t : PyDateTime) : PyDateTime :=
  if 2 ≤ t.day then { t with day := t.day - 1 }
  else if 2 ≤ t.month then
    { t with month := t.month - 1, day := daysInMonth t.year (t.month - 1) }
  else { year := t.year - 1, month := 12, day := 31, tod := t.tod }

/-- `t - timedelta(days=k)` on a valid datetime. -/
def subDays (t : PyDateTime) : Nat → PyDateTime
  | 0 => t
  | k + 1 => subDays (prevDay t) k

/-- Days of the proleptic Gregorian calendar strictly before January 1 of year y
(datetime's internal days-before-year count). -/
def daysBeforeYear (y : Nat) : Nat :=
  (y - 1) * 365 + (y - 1) / 4 - (y - 1) / 100 + (y - 1) / 400

/-- Days of year y strictly before the first of month m. -/
def daysBeforeMonth (y m : Nat) : Nat :=
  (List.range (m - 1)).foldl (fun acc i => acc + daysInMonth y (i + 1)) 0

/-- date.toordinal: the day count of the proleptic Gregorian calendar with
0001-01-01 as day 1. -/
def toordinal (t : PyDateTime) : Nat :=
  daysBeforeYear t.year + daysBeforeMonth t.year t.month + t.day

/-- datetime.weekday: Monday is 0 and Sunday is 6 (0001-01-01 was a Monday). -/
def pyWeekday (t : PyDateTime) : Nat :=
  (toordinal t + 6) % 7

/-- User row (models.py lines 7-22). -/
structure User where
  id : Nat
  username : List Char
  password_hash : List Char
  full_name : List Char
  email : Option (List Char)
  is_active : Bool
  created_at : PyDateTime
  last_login : Option PyDateTime
deriving DecidableEq

/-- The users table together with the next primary key the store will assign. -/
structure UserStore where
  users : List User
  nextId : Nat
deriving DecidableEq

/-- UserCreate schema (models.py lines 73-79). -/
structure UserCreate where
  username : List Char
  password : List Char
  full_name : List Char
  email : Option (List Char)
deriving DecidableEq

/-- UserLogin schema (models.py lines 82-86). -/
structure UserLogin where
  username : List Char
  password : List Char
deriving DecidableEq

/-- AuthService.create_user (services.py lines 53-72) with the digest, the fresh
salt and the clock as explicit inputs: reject when a user with the same username
exists, otherwise persist a new active user and return it with its assigned id. -/
def create_user (digest : List Char → List Char) (salt : List Char) (now : PyDateTime)
    (st : UserStore) (uc : UserCreate) : Option User × UserStore :=
  match st.users.find? (fun u => u.username == uc.username) with
  | some _ => (none, st)
  | none =>
    let u : User :=
      { id := st.nextId, username := uc.username,
        password_hash := hash_password digest uc.password salt,
        full_name := uc.full_name, email := uc.email, is_active := true,
        created_at := now, last_login := none }
    (some u, { users := st.users ++ [u], nextId := st.nextId + 1 })

/-- AuthService.authenticate_user (services.py lines 75-94) with digest and clock
explicit: look the user up by username, reject missing, inactive, or failed
verification, otherwise set last_login to now, persist, and return the refreshed
user. -/
def authenticate_user (digest : List Char → List Char) (now : PyDateTime)
    (st : UserStore) (login : UserLogin) : Option User × UserStore :=
  match st.users.find? (fun u => u.username == login.username) with
  | none => (none, st)
  | some user =>
    if !user.is_active then (none, st)
    else if !verify_password digest login.password user.password_hash then (none, st)
    else
      let u2 : User := { user with last_login := some now }
      (some u2, { st with users := st.users.map (fun v => if v.id == user.id then u2 else v) })

/-- C6: when some stored user already has the requested username, create_user
returns none and leaves the store — in particular that user's record — unchanged;
when no stored user has it, create_user appends a new active user carrying the
hashed password and returns it with the assigned id. -/
theorem c6_create_user_unique (digest : List Char → List Char) (salt : List Char)
    (now : PyDateTime) (st : UserStore) (uc : UserCreate) :
    ((∃ u ∈ st.users, u.username = uc.username) →
      create_user digest salt now st uc = (none, st)) ∧
    ((∀ u ∈ st.users, u.username ≠ uc.username) →
      ∃ u : User, create_user digest salt now st uc =
          (some u, { users := st.users ++ [u], nextId := st.nextId + 1 }) ∧
        u.is_active = true ∧ u.id = st.nextId ∧ u.username = uc.username ∧
        u.password_hash = hash_password digest uc.password salt) := by
  constructor
  · rintro ⟨u, hu, huname⟩
    have hfind : st.users.find? (fun v => v.username == uc.username) ≠ none := by
      intro hnone
      rw [List.find?_eq_none] at hnone
      exact hnone u hu (by simp [huname])
    unfold create_user
    cases hf : st.users.find? (fun v => v.username == uc.username) with
    | none => exact absurd hf hfind
    | some v => rfl
  · intro habs
    have hfind : st.users.find? (fun v => v.username == uc.username) = none := by
      rw [List.find?_eq_none]
      intro v hv
      simp [habs v hv]
    refine ⟨⟨st.nextId, uc.username, hash_password digest uc.password salt,
      uc.full_name, uc.email, true, now, none⟩, ?_, rfl, rfl, rfl, rfl⟩
    simp only [create_user, hfind]

/-- Concrete instantiation of the C6 theorem: a store holding one user named "a",
asked once for "a" (rejected, store intact) and once from an empty store
(accepted). -/
theorem c6_create_user_witness :
    (create_user (fun _ => ['d']) ['s'] ⟨2026, 1, 1, 0⟩
        ⟨[⟨1, ['a'], ['h'], [], none, true, ⟨2025, 1, 1, 0⟩, none⟩], 2⟩
        ⟨['a'], ['p', 'w'], ['n'], none⟩ =
      (none, ⟨[⟨1, ['a'], ['h'], [], none, true, ⟨2025, 1, 1, 0⟩, none⟩], 2⟩)) ∧
    (∃ u : User, create_user (fun _ => ['d']) ['s'] ⟨2026, 1, 1, 0⟩ ⟨[], 1⟩
          ⟨['a'], ['p', 'w'], ['n'], none⟩ =
        (some u, { users := ([] : List User) ++ [u], nextId := 1 + 1 }) ∧
      u.is_active = true ∧ u.id = 1 ∧ u.username = ['a'] ∧
      u.password_hash = hash_password (fun _ => ['d']) ['p', 'w'] ['s']) := by
  constructor
  · exact (c6_create_user_unique (fun _ => ['d']) ['s'] ⟨2026, 1, 1, 0⟩
      ⟨[⟨1, ['a'], ['h'], [], none, true, ⟨2025, 1, 1, 0⟩, none⟩], 2⟩
      ⟨['a'], ['p', 'w'], ['n'], none⟩).1
      ⟨⟨1, ['a'], ['h'], [], none, true, ⟨2025, 1, 1, 0⟩, none⟩, by simp, rfl⟩
  · exact (c6_create_user_unique (fun _ => ['d']) ['s'] ⟨2026, 1, 1, 0⟩ ⟨[], 1⟩
      ⟨['a'], ['p', 'w'], ['n'], none⟩).2 (by simp)

/-- C4: authenticate_user returns the same none result when the username is
absent, when the found user is inactive, and when password verification fails;
on success it returns a refreshed user whose last_login is the current time —
a time at least the time observed before the call — whose id matches the stored
user's, and whose record is persisted in the store. -/
theorem c4_authenticate_cases (digest : List Char → List Char) (now t0 : PyDateTime)
    (st : UserStore) (login : UserLogin) (ht : dtLe t0 now = true) :
    (st.users.find? (fun u => u.username == login.username) = none →
      authenticate_user digest now st login = (none, st)) ∧
    (∀ u, st.users.find? (fun v => v.username == login.username) = some u →
      u.is_active = false →
      authenticate_user digest now st login = (none, st)) ∧
    (∀ u, st.users.find? (fun v => v.username == login.username) = some u →
      u.is_active = true →
      verify_password digest login.password u.password_hash = false →
      authenticate_user digest now st login = (none, st)) ∧
    (∀ u, st.users.find? (fun v => v.username == login.username) = some u →
      u.is_active = true →
      verify_password digest login.password u.password_hash = true →
      ∃ u2 : User, (authenticate_user digest now st login).1 = some u2 ∧
        u2.last_login = some now ∧ dtLe t0 now = true ∧ u2.id = u.id ∧
        u2 ∈ (authenticate_user digest now st login).2.users) := by
  refine ⟨?_, ?_, ?_, ?_⟩
  · intro hf
    simp only [authenticate_user, hf]
  · intro u hf hact
    simp only [authenticate_user, hf, hact]
    rfl
  · intro u hf hact hver
    simp only [authenticate_user, hf, hact, hver]
    rfl
  · intro u hf hact hver
    refine ⟨{ u with last_login := some now }, ?_, rfl, ht, rfl, ?_⟩
    · simp only [authenticate_user, hf, hact, hver, Bool.not_true, Bool.false_eq_true,
        if_false]
    · simp only [authenticate_user, hf, hact, hver, Bool.not_true, Bool.false_eq_true,
        if_false]
      exact List.mem_map.mpr
        ⟨u, List.mem_of_find?_eq_some hf, by simp⟩

/-- Concrete instantiation of the C4 theorem, success case: one stored active
user "a" with stored hash "x$d" under the constant digest, correct credentials,
call clock one day past the observation time. -/
theorem c4_authenticate_witness :
    ∃ u2 : User,
      (authenticate_user (fun _ => ['d']) ⟨2026, 1, 2, 0⟩
          ⟨[⟨1, ['a'], ['x', '$', 'd'], [], none, true, ⟨2025, 1, 1, 0⟩, none⟩], 2⟩
          ⟨['a'], ['w']⟩).1 = some u2 ∧
      u2.last_login = some ⟨2026, 1, 2, 0⟩ ∧
      dtLe ⟨2026, 1, 1, 0⟩ ⟨2026, 1, 2, 0⟩ = true ∧ u2.id = 1 ∧
      u2 ∈ (authenticate_user (fun _ => ['d']) ⟨2026, 1, 2, 0⟩
          ⟨[⟨1, ['a'], ['x', '$', 'd'], [], none, true, ⟨2025, 1, 1, 0⟩, none⟩], 2⟩
          ⟨['a'], ['w']⟩).2.users :=
  (c4_authenticate_cases (fun _ => ['d']) ⟨2026, 1, 2, 0⟩ ⟨2026, 1, 1, 0⟩
      ⟨[⟨1, ['a'], ['x', '$', 'd'], [], none, true, ⟨2025, 1, 1, 0⟩, none⟩], 2⟩
      ⟨['a'], ['w']⟩ (by decide)).2.2.2
    ⟨1, ['a'], ['x', '$', 'd'], [], none, true, ⟨2025, 1, 1, 0⟩, none⟩
    (by decide) rfl (by decide)

/-- Index of the last occurrence of a character, str.rfind style (none when
absent). -/
def rfindIdx (c : Char) : List Char → Option Nat
  | [] => none
  | x :: xs =>
    match rfindIdx c xs with
    | some i => some (i + 1)
    | none => if x = c then some 0 else none

/-- pathlib.PurePath.name: the final slash-separated component. -/
def pathName (s : List Char) : List Char :=
  match (pySplit '/' s).getLast? with
  | some n => n
  | none => []

/-- pathlib.PurePath.suffix: the part of the name from its last dot on,
empty when the dot is absent, first, or last in the name. -/
def pySuffix (s : List Char) : List Char :=
  let name := pathName s
  match rfindIdx '.' name with
  | none => []
  | some i => if 0 < i ∧ i + 1 < name.length then name.drop i else []

/-- PhotoService.ALLOWED_EXTENSIONS (services.py line 120). -/
def ALLOWED_EXTENSIONS : List (List Char) :=
  [['.', 'j', 'p', 'g'], ['.', 'j', 'p', 'e', 'g'], ['.', 'p', 'n', 'g'],
    ['.', 'g', 'i', 'f'], ['.', 'w', 'e', 'b', 'p']]

/-- PhotoService.MAX_FILE_SIZE (services.py line 121): 10 MiB. -/
def MAX_FILE_SIZE : Nat := 10 * 1024 * 1024

/-- PhotoService.UPLOAD_DIR (services.py line 119). -/
def UPLOAD_DIR : List Char :=
  ['u', 'p', 'l', 'o', 'a', 'd', 's', '/', 'p', 'h', 'o', 't', 'o', 's']

/-- PhotoService.is_allowed_file (services.py lines 137-140): the lower-cased
suffix of the filename must be one of the allowed extensions. -/
def is_allowed_file (filename : List Char) : Bool :=
  ALLOWED_EXTENSIONS.contains ((pySuffix filename).map Char.toLower)

/-- PhotoService.generate_unique_filename (services.py lines 129-134) with the
strftime timestamp text and the random hex token as explicit inputs: compose
`timestamp _ token suffixLowered`. -/
def generate_unique_filename (ts tok original_filename : List Char) : List Char :=
  ts ++ '_' :: tok ++ (pySuffix original_filename).map Char.toLower

/-- The disk, as a map from file paths to byte strings. -/
abbrev FileSystem : Type := List (List Char × List Nat)

/-- Path.exists / reading a file: the entry stored at the path, if any. -/
def fsLookup (fs : FileSystem) (p : List Char) : Option (List Nat) :=
  (List.find? (fun e => e.1 == p) fs).map (fun e => e.2)

/-- Path.write_bytes: create or overwrite the file at the path. -/
def fsWrite (fs : FileSystem) (p : List Char) (content : List Nat) : FileSystem :=
  (p, content) :: List.filter (fun e => !(e.1 == p)) fs

/-- Path.unlink: remove the file at the path. -/
def fsRemove (fs : FileSystem) (p : List Char) : FileSystem :=
  List.filter (fun e => !(e.1 == p)) fs

/-- Photo row (models.py lines 25-39). -/
structure Photo where
  id : Nat
  filename : List Char
  original_filename : List Char
  file_path : List Char
  file_size : Nat
  mime_type : List Char
  uploaded_at : PyDateTime
deriving DecidableEq

/-- The photos table together with the next primary key the store will assign. -/
structure PhotoStore where
  photos : List Photo
  nextId : Nat
deriving DecidableEq

/-- PhotoService.save_photo (services.py lines 143-182). External effects are
explicit: fs is the disk, st the photos table, ts and tok feed the generated
filename, now is the upload timestamp, and dbFails models the database commit
raising inside the try block after the file write, which triggers the cleanup
branch (lines 176-182) that unlinks the written file when it exists and
returns None. -/
def save_photo (dbFails : Bool) (ts tok : List Char) (now : PyDateTime)
    (fs : FileSystem) (st : PhotoStore) (file_content : List Nat)
    (original_filename mime_type : List Char) :
    Option Photo × FileSystem × PhotoStore :=
  if !is_allowed_file original_filename then (none, fs, st)
  else if file_content.length > MAX_FILE_SIZE then (none, fs, st)
  else
    let filename := generate_unique_filename ts tok original_filename
    let file_path := UPLOAD_DIR ++ '/' :: filename
    let fs1 := fsWrite fs file_path file_content
    if dbFails then
      let fs2 := if (fsLookup fs1 file_path).isSome then fsRemove fs1 file_path else fs1
      (none, fs2, st)
    else
      let photo : Photo :=
        { id := st.nextId, filename := filename,
          original_filename := original_filename, file_path := file_path,
          file_size := file_content.length, mime_type := mime_type,
          uploaded_at := now }
      (some photo, fs1, { photos := st.photos ++ [photo], nextId := st.nextId + 1 })

theorem fsLookup_fsWrite_self (fs : FileSystem) (p : List Char) (c : List Nat) :
    fsLookup (fsWrite fs p c) p = some c := by
  simp [fsLookup, fsWrite, List.find?]

theorem fsRemove_fsWrite (fs : FileSystem) (p : List Char) (c : List Nat) :
    fsRemove (fsWrite fs p c) p = fsRemove fs p := by
  simp [fsRemove, fsWrite, List.filter_filter]

theorem fsLookup_fsRemove_self (fs : FileSystem) (p : List Char) :
    fsLookup (fsRemove fs p) p = none := by
  have hfind : List.find? (fun e => e.1 == p) (List.filter (fun e => !(e.1 == p)) fs) =
      none := by
    rw [List.find?_eq_none]
    intro e he
    have h2 := (List.mem_filter.mp he).2
    simp only [Bool.not_eq_true'] at h2
    simp [h2]
  simp [fsLookup, fsRemove, hfind]

theorem fsRemove_eq_self (fs : FileSystem) (p : List Char) (h : fsLookup fs p = none) :
    fsRemove fs p = fs := by
  have hfind : List.find? (fun e => e.1 == p) fs = none := by
    cases hf : List.find? (fun e => e.1 == p) fs with
    | none => rfl
    | some e => rw [fsLookup, hf] at h ; simp at h
  rw [List.find?_eq_none] at hfind
  unfold fsRemove
  rw [List.filter_eq_self]
  intro e he
  simp only [Bool.not_eq_true']
  exact Bool.of_not_eq_true (hfind e he)

/-- C7: save_photo rejects — it returns none and leaves both the disk and the
photos table unchanged — whenever the filename's lower-cased suffix is not in
the extension allow-list (in particular when the filename has no suffix at
all), or the content length exceeds MAX_FILE_SIZE. -/
theorem c7_save_photo_rejects (dbFails : Bool) (ts tok : List Char) (now : PyDateTime)
    (fs : FileSystem) (st : PhotoStore) (content : List Nat) (orig mime : List Char)
    (h : ALLOWED_EXTENSIONS.contains ((pySuffix orig).map Char.toLower) = false ∨
      MAX_FILE_SIZE < content.length) :
    save_photo dbFails ts tok now fs st content orig mime = (none, fs, st) := by
  rcases h with h | h
  · have ha : is_allowed_file orig = false := by
      unfold is_allowed_file
      exact h
    simp [save_photo, ha]
  · by_cases ha : is_allowed_file orig
    · simp [save_photo, ha, h]
    · simp [save_photo, ha]

/-- Concrete instantiation of the C7 theorem at the extensionless filename "a". -/
theorem c7_save_photo_witness :
    save_photo false ['t'] ['k'] ⟨2026, 1, 1, 0⟩ ([] : FileSystem) ⟨[], 1⟩ [1, 2]
      ['a'] ['m'] = (none, ([] : FileSystem), ⟨[], 1⟩) :=
  c7_save_photo_rejects false ['t'] ['k'] ⟨2026, 1, 1, 0⟩ ([] : FileSystem) ⟨[], 1⟩
    [1, 2] ['a'] ['m'] (Or.inl (by decide))

/-- C2: when the database persist raises after the file write succeeded
(dbFails = true) on an otherwise accepted input, save_photo returns none, the
photos table is unchanged, the written path holds no file afterwards, and when
the generated path was fresh on disk the disk ends exactly as it began. -/
theorem c2_save_photo_cleanup (ts tok : List Char) (now : PyDateTime)
    (fs : FileSystem) (st : PhotoStore) (content : List Nat) (orig mime : List Char)
    (hallow : is_allowed_file orig = true) (hsize : content.length ≤ MAX_FILE_SIZE) :
    (save_photo true ts tok now fs st content orig mime).1 = none ∧
    (save_photo true ts tok now fs st content orig mime).2.2 = st ∧
    fsLookup (save_photo true ts tok now fs st content orig mime).2.1
      (UPLOAD_DIR ++ '/' :: generate_unique_filename ts tok orig) = none ∧
    (fsLookup fs (UPLOAD_DIR ++ '/' :: generate_unique_filename ts tok orig) = none →
      (save_photo true ts tok now fs st content orig mime).2.1 = fs) := by
  have hnotgt : ¬ (content.length > MAX_FILE_SIZE) := not_lt.mpr hsize
  have key : save_photo true ts tok now fs st content orig mime =
      (none, fsRemove fs (UPLOAD_DIR ++ '/' :: generate_unique_filename ts tok orig),
        st) := by
    simp only [save_photo, hallow, Bool.not_true, Bool.false_eq_true, if_false, hnotgt,
      fsLookup_fsWrite_self, Option.isSome_some, if_true, fsRemove_fsWrite]
  refine ⟨by rw [key], by rw [key], ?_, ?_⟩
  · rw [key]
    exact fsLookup_fsRemove_self fs (UPLOAD_DIR ++ '/' :: generate_unique_filename ts tok orig)
  · intro hfresh
    rw [key]
    exact fsRemove_eq_self fs (UPLOAD_DIR ++ '/' :: generate_unique_filename ts tok orig) hfresh

/-- Concrete instantiation of the C2 theorem: an empty disk and photo table,
content of three bytes, filename "x.jpg". -/
theorem c2_save_photo_witness :
    (save_photo true ['t'] ['k'] ⟨2026, 1, 1, 0⟩ ([] : FileSystem) ⟨[], 1⟩ [1, 2, 3]
      ['x', '.', 'j', 'p', 'g'] ['m']).1 = none ∧
    (save_photo true ['t'] ['k'] ⟨2026, 1, 1, 0⟩ ([] : FileSystem) ⟨[], 1⟩ [1, 2, 3]
      ['x', '.', 'j', 'p', 'g'] ['m']).2.2 = (⟨[], 1⟩ : PhotoStore) ∧
    fsLookup (save_photo true ['t'] ['k'] ⟨2026, 1, 1, 0⟩ ([] : FileSystem) ⟨[], 1⟩
        [1, 2, 3] ['x', '.', 'j', 'p', 'g'] ['m']).2.1
      (UPLOAD_DIR ++ '/' :: generate_unique_filename ['t'] ['k']
        ['x', '.', 'j', 'p', 'g']) = none ∧
    (fsLookup ([] : FileSystem) (UPLOAD_DIR ++ '/' :: generate_unique_filename ['t'] ['k']
        ['x', '.', 'j', 'p', 'g']) = none →
      (save_photo true ['t'] ['k'] ⟨2026, 1, 1, 0⟩ ([] : FileSystem) ⟨[], 1⟩ [1, 2, 3]
        ['x', '.', 'j', 'p', 'g'] ['m']).2.1 = ([] : FileSystem)) :=
  c2_save_photo_cleanup ['t'] ['k'] ⟨2026, 1, 1, 0⟩ ([] : FileSystem) ⟨[], 1⟩ [1, 2, 3]
    ['x', '.', 'j', 'p', 'g'] ['m'] (by decide) (by decide)

/-- DataCollection row (models.py lines 45-65). The free-form JSON blobs are
kept as opaque key-value lists. -/
structure DataCollection where
  id : Nat
  customer_name : List Char
  description : List Char
  submission_date : PyDateTime
  user_id : Nat
  photo_id : Option Nat
  location_data : Option (List (List Char × List Char))
  device_info : Option (List (List Char × List Char))
  is_synchronized : Bool
  sync_error : Option (List Char)
deriving DecidableEq

/-- DataCollectionCreate schema (models.py lines 122-129). -/
structure DataCollectionCreate where
  customer_name : List Char
  description : List Char
  photo_id : Option Nat
  location_data : Option (List (List Char × List Char))
  device_info : Option (List (List Char × List Char))
deriving DecidableEq

/-- The tables create_collection touches, with the next collection primary key. -/
structure Database where
  users : List User
  photos : List Photo
  collections : List DataCollection
  collNextId : Nat
deriving DecidableEq

/-- DataCollectionService.create_collection (services.py lines 208-234) with the
clock explicit: reject when the user id resolves to no user, reject when a photo
id is given but resolves to no photo, otherwise persist a record whose
submission_date defaults to now and whose is_synchronized defaults to false. -/
def create_collection (now : PyDateTime) (db : Database) (user_id : Nat)
    (cd : DataCollectionCreate) : Option DataCollection × Database :=
  match db.users.find? (fun u => u.id == user_id) with
  | none => (none, db)
  | some _ =>
    let photoOk : Bool :=
      match cd.photo_id with
      | none => true
      | some pid => (db.photos.find? (fun p => p.id == pid)).isSome
    if !photoOk then (none, db)
    else
      let coll : DataCollection :=
        { id := db.collNextId, customer_name := cd.customer_name,
          description := cd.description, submission_date := now,
          user_id := user_id, photo_id := cd.photo_id,
          location_data := cd.location_data, device_info := cd.device_info,
          is_synchronized := false, sync_error := none }
      let db2 : Database :=
        { db with collections := db.collections ++ [coll],
                  collNextId := db.collNextId + 1 }
      (some coll, db2)

/-- DataCollectionService.get_collections_by_user (services.py lines 237-248):
the user's collections ordered by descending submission date, truncated at
limit. -/
def get_collections_by_user (colls : List DataCollection) (user_id limit : Nat) :
    List DataCollection :=
  ((colls.filter (fun c => c.user_id == user_id)).mergeSort
    (fun a b => dtLe b.submission_date a.submission_date)).take limit

/-- get_collections_by_user at its default limit of 100. -/
def get_collections_by_user_default (colls : List DataCollection) (user_id : Nat) :
    List DataCollection :=
  get_collections_by_user colls user_id 100

/-- Python max(xs, key=f) as used at services.py line 283: the first element
with the maximal key; a later element replaces the running best only when its
key is strictly greater. -/
def pyMaxBy (key : DataCollection → PyDateTime) : List DataCollection →
    Option DataCollection
  | [] => none
  | x :: xs => some (xs.foldl (fun best c => if dtLt (key best) (key c) then c else best) x)

/-- DashboardStats schema (models.py lines 172-180); last_submission stands for
the datetime whose ISO rendering the code returns. -/
structure DashboardStats where
  total_collections : Nat
  collections_today : Nat
  collections_this_week : Nat
  collections_this_month : Nat
  pending_sync : Nat
  last_submission : Option PyDateTime
deriving DecidableEq

/-- DataCollectionService.get_dashboard_stats (services.py lines 257-293) with
the store and the clock explicit. today_start is midnight of the current day and
month_start midnight of the first of the month; week_start is now minus
weekday() whole days, which keeps the current time of day. Each count filters
the user's full collection list. -/
def get_dashboard_stats (colls : List DataCollection) (user_id : Nat)
    (now : PyDateTime) : DashboardStats :=
  let today_start : PyDateTime := ⟨now.year, now.month, now.day, 0⟩
  let week_start : PyDateTime := subDays now (pyWeekday now)
  let month_start : PyDateTime := ⟨now.year, now.month, 1, 0⟩
  let total := colls.filter (fun c => c.user_id == user_id)
  { total_collections := total.length
    collections_today := (total.filter (fun c => dtLe today_start c.submission_date)).length
    collections_this_week := (total.filter (fun c => dtLe week_start c.submission_date)).length
    collections_this_month := (total.filter (fun c => dtLe month_start c.submission_date)).length
    pending_sync := (total.filter (fun c => !c.is_synchronized)).length
    last_submission := (pyMaxBy (fun c => c.submission_date) total).map
      (fun c => c.submission_date) }

/-- C8: create_collection returns none and leaves the database untouched — so
no record is ever created halfway — when the user id matches no stored user,
and likewise when a photo id is supplied but matches no stored photo; when both
references resolve it appends one record with is_synchronized false and
submission_date now and returns it with the assigned id. -/
theorem c8_create_collection_referential (now : PyDateTime) (db : Database)
    (uid : Nat) (cd : DataCollectionCreate) :
    ((∀ u ∈ db.users, u.id ≠ uid) → create_collection now db uid cd = (none, db)) ∧
    (∀ pid, cd.photo_id = some pid → (∀ p ∈ db.photos, p.id ≠ pid) →
      create_collection now db uid cd = (none, db)) ∧
    ((∃ u ∈ db.users, u.id = uid) →
      (∀ pid, cd.photo_id = some pid → ∃ p ∈ db.photos, p.id = pid) →
      ∃ coll : DataCollection, create_collection now db uid cd =
          (some coll, { db with collections := db.collections ++ [coll],
                                collNextId := db.collNextId + 1 }) ∧
        coll.is_synchronized = false ∧ coll.submission_date = now ∧
        coll.id = db.collNextId ∧ coll.user_id = uid) := by
  refine ⟨?_, ?_, ?_⟩
  · intro h
    have hfind : db.users.find? (fun u => u.id == uid) = none := by
      rw [List.find?_eq_none]
      intro u hu
      simp [h u hu]
    simp only [create_collection, hfind]
  · intro pid hpid h
    have hpfind : db.photos.find? (fun p => p.id == pid) = none := by
      rw [List.find?_eq_none]
      intro p hp
      simp [h p hp]
    unfold create_collection
    cases hf : db.users.find? (fun u => u.id == uid) with
    | none => rfl
    | some u => simp [hpid, hpfind]
  · rintro ⟨u, hu, huid⟩ hph
    have hfind : db.users.find? (fun v => v.id == uid) ≠ none := by
      intro hnone
      rw [List.find?_eq_none] at hnone
      exact hnone u hu (by simp [huid])
    cases hf : db.users.find? (fun v => v.id == uid) with
    | none => exact absurd hf hfind
    | some v =>
      have hok : (match cd.photo_id with
          | none => true
          | some pid => (db.photos.find? (fun p => p.id == pid)).isSome) = true := by
        cases hcp : cd.photo_id with
        | none => rfl
        | some pid =>
          obtain ⟨p, hp, hpeq⟩ := hph pid hcp
          have hne : db.photos.find? (fun q => q.id == pid) ≠ none := by
            intro hnone
            rw [List.find?_eq_none] at hnone
            exact hnone p hp (by simp [hpeq])
          simpa [Option.isSome_iff_ne_none] using hne
      refine ⟨⟨db.collNextId, cd.customer_name, cd.description, now, uid, cd.photo_id,
        cd.location_data, cd.device_info, false, none⟩, ?_, rfl, rfl, rfl, rfl⟩
      simp only [create_collection, hf, hok, Bool.not_true, Bool.false_eq_true, if_false]

/-- Concrete instantiation of the C8 theorem: one user (id 1) and one photo
(id 1) stored; requests for user 2, for photo 9, and a valid request. -/
theorem c8_create_collection_witness :
    (create_collection ⟨2026, 1, 1, 0⟩
        ⟨[⟨1, ['a'], ['h'], [], none, true, ⟨2025, 1, 1, 0⟩, none⟩],
          [⟨1, ['f'], ['o'], ['q'], 3, ['m'], ⟨2025, 1, 1, 0⟩⟩], [], 5⟩ 2
        ⟨['c'], ['d'], none, none, none⟩ =
      (none, ⟨[⟨1, ['a'], ['h'], [], none, true, ⟨2025, 1, 1, 0⟩, none⟩],
        [⟨1, ['f'], ['o'], ['q'], 3, ['m'], ⟨2025, 1, 1, 0⟩⟩], [], 5⟩)) ∧
    (create_collection ⟨2026, 1, 1, 0⟩
        ⟨[⟨1, ['a'], ['h'], [], none, true, ⟨2025, 1, 1, 0⟩, none⟩],
          [⟨1, ['f'], ['o'], ['q'], 3, ['m'], ⟨2025, 1, 1, 0⟩⟩], [], 5⟩ 1
        ⟨['c'], ['d'], some 9, none, none⟩ =
      (none, ⟨[⟨1, ['a'], ['h'], [], none, true, ⟨2025, 1, 1, 0⟩, none⟩],
        [⟨1, ['f'], ['o'], ['q'], 3, ['m'], ⟨2025, 1, 1, 0⟩⟩], [], 5⟩)) ∧
    (∃ coll : DataCollection, create_collection ⟨2026, 1, 1, 0⟩
        ⟨[⟨1, ['a'], ['h'], [], none, true, ⟨2025, 1, 1, 0⟩, none⟩],
          [⟨1, ['f'], ['o'], ['q'], 3, ['m'], ⟨2025, 1, 1, 0⟩⟩], [], 5⟩ 1
        ⟨['c'], ['d'], none, none, none⟩ =
        (some coll, ⟨[⟨1, ['a'], ['h'], [], none, true, ⟨2025, 1, 1, 0⟩, none⟩],
          [⟨1, ['f'], ['o'], ['q'], 3, ['m'], ⟨2025, 1, 1, 0⟩⟩], [coll], 6⟩) ∧
      coll.is_synchronized = false ∧ coll.submission_date = ⟨2026, 1, 1, 0⟩ ∧
      coll.id = 5 ∧ coll.user_id = 1) :=
  ⟨(c8_create_collection_referential ⟨2026, 1, 1, 0⟩
      ⟨[⟨1, ['a'], ['h'], [], none, true, ⟨2025, 1, 1, 0⟩, none⟩],
        [⟨1, ['f'], ['o'], ['q'], 3, ['m'], ⟨2025, 1, 1, 0⟩⟩], [], 5⟩ 2
      ⟨['c'], ['d'], none, none, none⟩).1 (by decide),
    (c8_create_collection_referential ⟨2026, 1, 1, 0⟩
      ⟨[⟨1, ['a'], ['h'], [], none, true, ⟨2025, 1, 1, 0⟩, none⟩],
        [⟨1, ['f'], ['o'], ['q'], 3, ['m'], ⟨2025, 1, 1, 0⟩⟩], [], 5⟩ 1
      ⟨['c'], ['d'], some 9, none, none⟩).2.1 9 rfl (by decide),
    (c8_create_collection_referential ⟨2026, 1, 1, 0⟩
      ⟨[⟨1, ['a'], ['h'], [], none, true, ⟨2025, 1, 1, 0⟩, none⟩],
        [⟨1, ['f'], ['o'], ['q'], 3, ['m'], ⟨2025, 1, 1, 0⟩⟩], [], 5⟩ 1
      ⟨['c'], ['d'], none, none, none⟩).2.2 (by decide) (fun pid h => nomatch h)⟩

/-- C9: get_collections_by_user returns only collections whose user reference
is the given user id, in descending submission-date order, and at most limit
of them. -/
theorem c9_collections_by_user_sorted (colls : List DataCollection) (uid limit : Nat) :
    (∀ c ∈ get_collections_by_user colls uid limit, c.user_id = uid) ∧
    (get_collections_by_user colls uid limit).Pairwise
      (fun a b => dtLe b.submission_date a.submission_date = true) ∧
    (get_collections_by_user colls uid limit).length ≤ limit := by
  refine ⟨?_, ?_, ?_⟩
  · intro c hc
    have hmem : c ∈ (colls.filter (fun c => c.user_id == uid)).mergeSort
        (fun a b => dtLe b.submission_date a.submission_date) :=
      List.take_subset limit _ hc
    have hmem2 : c ∈ colls.filter (fun c => c.user_id == uid) :=
      (List.mergeSort_perm _ _).mem_iff.mp hmem
    have := (List.mem_filter.mp hmem2).2
    simpa using this
  · have htr : ∀ a b c : DataCollection, dtLe b.submission_date a.submission_date →
        dtLe c.submission_date b.submission_date →
        dtLe c.submission_date a.submission_date :=
      fun a b c h1 h2 => dtLe_trans h2 h1
    have hto : ∀ a b : DataCollection,
        dtLe b.submission_date a.submission_date ||
          dtLe a.submission_date b.submission_date :=
      fun a b => dtLe_total b.submission_date a.submission_date
    have hsorted := List.sorted_mergeSort htr hto
      (colls.filter (fun c => c.user_id == uid))
    exact hsorted.sublist (List.take_sublist limit _)
  · simp [get_collections_by_user, List.length_take]

/-- C1: get_dashboard_stats computes week_start as now minus weekday() days
keeping the current time of day, not as the most recent Monday at midnight: at
Monday 2026-10-12 12:00:00 UTC (weekday 0, so week_start equals now itself), a
collection of the user submitted the same Monday at 08:00:00 — at or after
Monday midnight, so the claimed boundary counts it — is excluded from
collections_this_week even though collections_today counts it. -/
theorem c1_week_start_not_monday_midnight :
    pyWeekday ⟨2026, 10, 12, 43200⟩ = 0 ∧
    subDays ⟨2026, 10, 12, 43200⟩ (pyWeekday ⟨2026, 10, 12, 43200⟩) =
      ⟨2026, 10, 12, 43200⟩ ∧
    dtLe ⟨2026, 10, 12, 0⟩ (⟨2026, 10, 12, 28800⟩ : PyDateTime) = true ∧
    (get_dashboard_stats
      [⟨1, [], [], ⟨2026, 10, 12, 28800⟩, 1, none, none, none, false, none⟩] 1
      ⟨2026, 10, 12, 43200⟩).collections_this_week = 0 ∧
    (get_dashboard_stats
      [⟨1, [], [], ⟨2026, 10, 12, 28800⟩, 1, none, none, none, false, none⟩] 1
      ⟨2026, 10, 12, 43200⟩).collections_today = 1 := by
  decide

/-- C10: for every store, user and current time with a valid day of month,
collections_today ≤ collections_this_month ≤ total_collections and
pending_sync ≤ total_collections: the day boundary is never earlier than the
month boundary and every count filters the same per-user list. -/
theorem c10_dashboard_count_monotone (colls : List DataCollection) (uid : Nat)
    (now : PyDateTime) (hday : 1 ≤ now.day) :
    (get_dashboard_stats colls uid now).collections_today ≤
      (get_dashboard_stats colls uid now).collections_this_month ∧
    (get_dashboard_stats colls uid now).collections_this_month ≤
      (get_dashboard_stats colls uid now).total_collections ∧
    (get_dashboard_stats colls uid now).pending_sync ≤
      (get_dashboard_stats colls uid now).total_collections := by
  have hms : dtLe ⟨now.year, now.month, 1, 0⟩ ⟨now.year, now.month, now.day, 0⟩ = true := by
    simp only [dtLe, decide_eq_true_eq, lt_self_iff_false, true_and, false_or, le_refl,
      and_true]
    omega
  simp only [get_dashboard_stats]
  refine ⟨?_, ?_, ?_⟩
  · rw [← List.countP_eq_length_filter, ← List.countP_eq_length_filter]
    apply List.countP_mono_left
    intro c hc h
    exact dtLe_trans hms h
  · exact List.length_filter_le _ _
  · exact List.length_filter_le _ _

/-- Concrete instantiation of the C10 theorem: empty store, the first of
January 2026. -/
theorem c10_dashboard_witness :
    (get_dashboard_stats [] 0 ⟨2026, 1, 1, 0⟩).collections_today ≤
      (get_dashboard_stats [] 0 ⟨2026, 1, 1, 0⟩).collections_this_month ∧
    (get_dashboard_stats [] 0 ⟨2026, 1, 1, 0⟩).collections_this_month ≤
      (get_dashboard_stats [] 0 ⟨2026, 1, 1, 0⟩).total_collections ∧
    (get_dashboard_stats [] 0 ⟨2026, 1, 1, 0⟩).pending_sync ≤
      (get_dashboard_stats [] 0 ⟨2026, 1, 1, 0⟩).total_collections :=
  c10_dashboard_count_monotone [] 0 ⟨2026, 1, 1, 0⟩ (by decide)
